import Mathlib

/-!
Verification of the Meshage mesh-messaging layer.

Strings from the TypeScript/Kotlin sources are embedded as `List Char`
(named `Str` below) so that the JavaScript `String.prototype.split`,
`startsWith` and template-literal concatenation used by the code can be
modelled exactly and reasoned about by induction.
-/

abbrev Str := List Char

/-- JavaScript `s.split(c)` for a single-character separator `c`:
splits at every occurrence of `c`; the empty string splits to `[""]`. -/
def splitOnChar (c : Char) : Str → List Str
  | [] => [[]]
  | x :: xs =>
    if x = c then [] :: splitOnChar c xs
    else
      match splitOnChar c xs with
      | [] => [[x]]
      | h :: t => (x :: h) :: t

/-- JavaScript `s.split(c, limit)`: the full split truncated to `limit` entries. -/
def splitLimit (c : Char) (limit : Nat) (s : Str) : List Str :=
  (splitOnChar c s).take limit

theorem splitOnChar_ne_nil (c : Char) (s : Str) : splitOnChar c s ≠ [] := by
  induction s with
  | nil => simp [splitOnChar]
  | cons x xs ih =>
    simp only [splitOnChar]
    by_cases hx : x = c
    · simp [hx]
    · simp only [hx, if_false]
      cases h : splitOnChar c xs with
      | nil => exact absurd h ih
      | cons a t => simp

theorem splitOnChar_of_not_mem (c : Char) (s : Str) (h : c ∉ s) :
    splitOnChar c s = [s] := by
  induction s with
  | nil => simp [splitOnChar]
  | cons x xs ih =>
    have hx : x ≠ c := fun hc => h (hc ▸ List.mem_cons_self x xs)
    have hxs : c ∉ xs := fun hc => h (List.mem_cons_of_mem x hc)
    simp only [splitOnChar, hx, if_false, ih hxs]

theorem splitOnChar_append (c : Char) (xs ys : Str) (h : c ∉ xs) :
    splitOnChar c (xs ++ c :: ys) = xs :: splitOnChar c ys := by
  induction xs with
  | nil => simp [splitOnChar]
  | cons x rest ih =>
    have hx : x ≠ c := fun hc => h (hc ▸ List.mem_cons_self x rest)
    have hrest : c ∉ rest := fun hc => h (List.mem_cons_of_mem x hc)
    simp only [List.cons_append, splitOnChar, hx, if_false]
    rw [List.append_eq, ih hrest]

theorem splitOnChar_headD (c : Char) (s : Str) :
    (splitOnChar c s).headD [] = s.takeWhile (fun x => x != c) := by
  induction s with
  | nil => simp [splitOnChar, List.takeWhile]
  | cons x xs ih =>
    by_cases hx : x = c
    · simp [splitOnChar, hx, List.takeWhile]
    · have hbne : (x != c) = true := by simp [bne_iff_ne, hx]
      simp only [splitOnChar, hx, if_false]
      cases h : splitOnChar c xs with
      | nil => exact absurd h (splitOnChar_ne_nil c xs)
      | cons a t =>
        have ha : a = xs.takeWhile (fun y => y != c) := by
          have hh := ih
          rw [h] at hh
          simpa using hh
        simp [List.takeWhile, hbne, ha]

theorem isPrefixOf_append_self (xs ys : Str) :
    List.isPrefixOf xs (xs ++ ys) = true := by
  induction xs with
  | nil => simp [List.isPrefixOf]
  | cons x rest ih => simp [List.isPrefixOf, ih]

theorem takeWhile_eq_self_iff_not_mem (c : Char) (s : Str) :
    s.takeWhile (fun x => x != c) = s ↔ c ∉ s := by
  rw [List.takeWhile_eq_self_iff]
  constructor
  · intro h hc
    have := h c hc
    simp at this
  · intro h x hx
    have : x ≠ c := fun he => h (he ▸ hx)
    simp [bne_iff_ne, this]

/-!
## Identity Resolver (src/src/screens/Chats/useChatScreen.ts)
-/

/-- The identity token built in `useChatScreen.initializeApp`:
the template literal joining username and device id with a pipe. -/
def buildIdentity (username deviceId : Str) : Str :=
  username ++ '|' :: deviceId

structure ParsedIdentity where
  displayName : Str
  persistentId : Option Str
deriving DecidableEq

/-- `parseDeviceIdentifier` from useChatScreen.ts: split the device name on
the pipe; exactly two parts yield name and persistent id, any other shape
falls back to a display-name-only identity with no persistent id. -/
def parseDeviceIdentifier (deviceName : Str) : ParsedIdentity :=
  match splitOnChar '|' deviceName with
  | [a, b] => ⟨a, some b⟩
  | _ => ⟨deviceName, none⟩

theorem parseDeviceIdentifier_once (name id : Str) (hn : '|' ∉ name) (hi : '|' ∉ id) :
    parseDeviceIdentifier (name ++ '|' :: id) = ⟨name, some id⟩ := by
  unfold parseDeviceIdentifier
  rw [splitOnChar_append '|' name id hn, splitOnChar_of_not_mem '|' id hi]

/-- C4: for any display name and persistent id free of the pipe delimiter,
parsing the identity token built from them returns exactly that display name
and that persistent id. -/
theorem parse_buildIdentity_roundtrip (name id : Str) (hn : '|' ∉ name) (hi : '|' ∉ id) :
    parseDeviceIdentifier (buildIdentity name id) = ⟨name, some id⟩ :=
  parseDeviceIdentifier_once name id hn hi

theorem parse_buildIdentity_roundtrip_witness :
    parseDeviceIdentifier (buildIdentity "Alice".toList "abc-123-def".toList)
      = ⟨"Alice".toList, some "abc-123-def".toList⟩ :=
  parse_buildIdentity_roundtrip "Alice".toList "abc-123-def".toList
    (by decide) (by decide)

/-- C5 counterexample: a token with two delimiters is not split at the first
delimiter; the parser degrades it to a display-name-only identity instead of
returning displayName `a` with persistentId `b|c`. -/
theorem parseDeviceIdentifier_not_split_at_first :
    parseDeviceIdentifier "a|b|c".toList = ⟨"a|b|c".toList, none⟩ ∧
    parseDeviceIdentifier "a|b|c".toList ≠ ⟨"a".toList, some "b|c".toList⟩ := by
  constructor
  · decide
  · decide

/-- C5 (amended): `parseDeviceIdentifier` yields a displayName/persistentId
pair only for tokens containing exactly one delimiter, splitting there; a
token with no delimiter is a display-name-only identity, and so is any token
whose split does not have exactly two parts (two or more delimiters); the
parser is a total function, so no input makes it throw. -/
theorem parseDeviceIdentifier_spec :
    (∀ name id, '|' ∉ name → '|' ∉ id →
        parseDeviceIdentifier (name ++ '|' :: id) = ⟨name, some id⟩) ∧
    (∀ token, '|' ∉ token → parseDeviceIdentifier token = ⟨token, none⟩) ∧
    (∀ token, (splitOnChar '|' token).length ≠ 2 →
        parseDeviceIdentifier token = ⟨token, none⟩) := by
  refine ⟨parseDeviceIdentifier_once, ?_, ?_⟩
  · intro token h
    unfold parseDeviceIdentifier
    rw [splitOnChar_of_not_mem '|' token h]
  · intro token h
    unfold parseDeviceIdentifier
    cases hs : splitOnChar '|' token with
    | nil => rfl
    | cons a t =>
      cases t with
      | nil => rfl
      | cons b t2 =>
        cases t2 with
        | nil => exact absurd (by rw [hs]; rfl : (splitOnChar '|' token).length = 2) h
        | cons d t3 => rfl

theorem parseDeviceIdentifier_spec_witness :
    parseDeviceIdentifier ("Bob".toList ++ '|' :: "id-1".toList)
      = ⟨"Bob".toList, some "id-1".toList⟩ ∧
    parseDeviceIdentifier "plain".toList = ⟨"plain".toList, none⟩ ∧
    parseDeviceIdentifier "x|y|z".toList = ⟨"x|y|z".toList, none⟩ :=
  ⟨parseDeviceIdentifier_spec.1 "Bob".toList "id-1".toList (by decide) (by decide),
   parseDeviceIdentifier_spec.2.1 "plain".toList (by decide),
   parseDeviceIdentifier_spec.2.2 "x|y|z".toList (by decide)⟩

/-!
## Native message router (src/android/.../MeshNetworkModule.kt)
-/

/-- `forwardMessageToOthers`: send the received bytes to every connected
endpoint except the sender. The result lists the (endpoint, payload) sends. -/
def forwardMessageToOthers (message senderEndpointId : Str)
    (connectedEndpoints : List Str) : List (Str × Str) :=
  (connectedEndpoints.filter (fun endpointId => endpointId != senderEndpointId)).map
    (fun endpointId => (endpointId, message))

/-- `payloadCallback.onPayloadReceived` for a BYTES payload: the bytes are
decoded, emitted locally as onMessageReceived, and handed unchanged to
`forwardMessageToOthers`; the native router never inspects any message tag.
Returns the list of (endpoint, bytes) forwards made. -/
def onPayloadReceivedForwards (senderEndpointId message : Str)
    (connectedEndpoints : List Str) : List (Str × Str) :=
  forwardMessageToOthers message senderEndpointId connectedEndpoints

/-- C1: every payload received from endpoint E — whatever its classification —
is forwarded with its original bytes to exactly the connected endpoints other
than E, and never back to E. -/
theorem onPayloadReceived_flood_spec (message sender : Str) (connected : List Str) :
    (∀ p ∈ onPayloadReceivedForwards sender message connected,
        p.1 ≠ sender ∧ p.1 ∈ connected ∧ p.2 = message) ∧
    (∀ e ∈ connected, e ≠ sender →
        (e, message) ∈ onPayloadReceivedForwards sender message connected) := by
  constructor
  · intro p hp
    unfold onPayloadReceivedForwards forwardMessageToOthers at hp
    rcases List.mem_map.mp hp with ⟨e, he, rfl⟩
    have hm := List.mem_filter.mp he
    refine ⟨?_, hm.1, rfl⟩
    simpa [bne_iff_ne] using hm.2
  · intro e he hne
    unfold onPayloadReceivedForwards forwardMessageToOthers
    exact List.mem_map.mpr ⟨e, List.mem_filter.mpr ⟨he, by simp [hne]⟩, rfl⟩

theorem onPayloadReceived_flood_spec_witness :
    ("e1".toList, "hello".toList)
      ∈ onPayloadReceivedForwards "e2".toList "hello".toList
          ["e1".toList, "e2".toList, "e3".toList] :=
  (onPayloadReceived_flood_spec "hello".toList "e2".toList
      ["e1".toList, "e2".toList, "e3".toList]).2 "e1".toList (by decide) (by decide)

inductive NativeEvent where
  | messageSent (message : Str) (targetAddress : Option Str) (success : Bool)
  | messageError (error : Str)
deriving DecidableEq

structure SendOutcome where
  sends : List (Str × Str)
  events : List NativeEvent
deriving DecidableEq

/-- `sendMessage` from MeshNetworkModule.kt. A non-null target gets a single
point-to-point send whose success or failure arrives later from transport
listeners, so no synchronous event is recorded for it. A null target is the
broadcast branch: zero connected peers emit the no-peers onMessageError and
return before any send; otherwise the payload is sent to every connected
endpoint unconditionally and onMessageSent fires once afterwards. -/
def sendMessage (message : Str) (targetAddress : Option Str)
    (connectedEndpoints : List Str) : SendOutcome :=
  match targetAddress with
  | some target => { sends := [(target, message)], events := [] }
  | none =>
    if connectedEndpoints.isEmpty then
      { sends := [],
        events := [NativeEvent.messageError "No connected peers".toList] }
    else
      { sends := connectedEndpoints.map (fun endpointId => (endpointId, message)),
        events := [NativeEvent.messageSent message none true] }

/-- C8: a broadcast send with zero connected peers reports the no-peers error,
sends nothing and reports no success; with peers connected, every connected
endpoint gets its own send of the payload, none conditioned on the others. -/
theorem sendMessage_broadcast_spec (message : Str) (connected : List Str) :
    (connected = [] →
        (sendMessage message none connected).sends = [] ∧
        (sendMessage message none connected).events
          = [NativeEvent.messageError "No connected peers".toList] ∧
        ∀ m t s, NativeEvent.messageSent m t s
          ∉ (sendMessage message none connected).events) ∧
    (connected ≠ [] →
        (sendMessage message none connected).sends
          = connected.map (fun e => (e, message)) ∧
        ∀ e ∈ connected, (e, message) ∈ (sendMessage message none connected).sends) := by
  constructor
  · rintro rfl
    refine ⟨rfl, rfl, ?_⟩
    intro m t s hmem
    simp [sendMessage] at hmem
  · intro h
    have hne : connected.isEmpty = false := by
      cases connected with
      | nil => exact absurd rfl h
      | cons a t => rfl
    refine ⟨by simp [sendMessage, hne], ?_⟩
    intro e he
    simp only [sendMessage, hne, Bool.false_eq_true, if_false]
    exact List.mem_map.mpr ⟨e, he, rfl⟩

theorem sendMessage_broadcast_spec_witness :
    (sendMessage "hi".toList none []).events
      = [NativeEvent.messageError "No connected peers".toList] ∧
    ("e1".toList, "hi".toList)
      ∈ (sendMessage "hi".toList none ["e1".toList, "e2".toList]).sends :=
  ⟨((sendMessage_broadcast_spec "hi".toList []).1 rfl).2.1,
   ((sendMessage_broadcast_spec "hi".toList ["e1".toList, "e2".toList]).2
      (by decide)).2 "e1".toList (by decide)⟩

/-!
## Personal chat hook (src/src/screens/Friends/usePersonalChat.ts)
-/

def directMsgTag : Str := "DIRECT_MSG:".toList

def friendRequestTag : Str := "FRIEND_REQUEST:".toList

def friendAcceptTag : Str := "FRIEND_ACCEPT:".toList

/-- The ASCII part of the whitespace set removed by JavaScript trim. -/
def isJsSpace (c : Char) : Bool :=
  c = ' ' || c = '\t' || c = '\n' || c = '\r'

/-- JavaScript `s.trim()`. -/
def jsTrim (s : Str) : Str :=
  ((s.dropWhile isJsSpace).reverse.dropWhile isJsSpace).reverse

/-- A value in the argument list of a React Native bridge call. -/
inductive JsArg where
  | str (value : Str) : JsArg
  | null : JsArg
deriving DecidableEq

/-- `usePersonalChat.handleSendMessage`: after the empty-after-trim guard it
builds the template literal DIRECT_MSG tag, friendId, colon, text, and calls
`MeshNetwork.sendMessage` with three arguments — the tagged message, the
local username, and null. Returns the argument list handed to the bridge,
or none when the guard returns early. -/
def handleSendMessageArgs (messageText friendId myUsername : Str) : Option (List JsArg) :=
  if jsTrim messageText = [] then none
  else some [JsArg.str (directMsgTag ++ friendId ++ ':' :: messageText),
             JsArg.str myUsername, JsArg.null]

/-- React Native binds a JS call to the native
`fun sendMessage(message: String, targetAddress: String?)` only when the
argument count matches its two parameters; any other arity raises
NativeArgumentsParseException in the bridge and the method never runs. -/
def bindSendMessageArgs (args : List JsArg) : Option (Str × Option Str) :=
  match args with
  | [JsArg.str message, JsArg.str target] => some (message, some target)
  | [JsArg.str message, JsArg.null] => some (message, none)
  | _ => none

/-- C3 (code bug): at messageText hi, friendId B1, myUsername Alice the hook
passes three arguments to the two-parameter native sendMessage, so the bridge
rejects the call and the direct message is never handed to the transport as a
broadcast; the two-argument call (message, null) used by the sibling
implementation in PersonalChatScreen.tsx would have been bound as one. -/
theorem usePersonalChat_send_not_broadcast :
    handleSendMessageArgs "hi".toList "B1".toList "Alice".toList
      = some [JsArg.str "DIRECT_MSG:B1:hi".toList, JsArg.str "Alice".toList,
              JsArg.null] ∧
    bindSendMessageArgs [JsArg.str "DIRECT_MSG:B1:hi".toList,
        JsArg.str "Alice".toList, JsArg.null] = none ∧
    bindSendMessageArgs [JsArg.str "DIRECT_MSG:B1:hi".toList, JsArg.null]
      = some ("DIRECT_MSG:B1:hi".toList, none) := by
  refine ⟨by decide, rfl, rfl⟩

/-- The `Message` record of src/types/index.ts as used by usePersonalChat. -/
structure Message where
  id : Str
  text : Str
  fromAddress : Str
  senderName : Str
  timestamp : Nat
  isSent : Bool
deriving DecidableEq

/-- The id template literal of a received message: timestamp, dash, address. -/
def mkRecvId (timestamp : Nat) (fromAddress : Str) : Str :=
  Nat.toDigits 10 timestamp ++ '-' :: fromAddress

/-- The onMessageReceived listener of usePersonalChat.ts: a DIRECT_MSG is
split on the colon with limit 3; when exactly three parts come back and the
target equals the local persistent id the content part is appended to the
personal-chat message list, otherwise (wrong target, malformed tag, friend
or broadcast traffic) the list is unchanged. -/
def personalChatOnMessage (myPersistentId friendName message fromAddress : Str)
    (timestamp : Nat) (messages : List Message) : List Message :=
  if List.isPrefixOf directMsgTag message then
    match splitLimit ':' 3 message with
    | [_, targetPersistentId, messageContent] =>
      if targetPersistentId = myPersistentId then
        messages ++ [⟨mkRecvId timestamp fromAddress, messageContent,
                      fromAddress, friendName, timestamp, false⟩]
      else messages
    | _ => messages
  else messages

theorem splitLimit_directMsg (target content : Str) (ht : ':' ∉ target) :
    splitLimit ':' 3 (directMsgTag ++ target ++ ':' :: content)
      = ["DIRECT_MSG".toList, target, content.takeWhile (fun x => x != ':')] := by
  have htag : directMsgTag = "DIRECT_MSG".toList ++ [':'] := by decide
  have hword : ':' ∉ "DIRECT_MSG".toList := by decide
  have heq : directMsgTag ++ target ++ ':' :: content
      = "DIRECT_MSG".toList ++ ':' :: (target ++ ':' :: content) := by
    rw [htag]
    simp [List.append_assoc]
  unfold splitLimit
  rw [heq, splitOnChar_append ':' _ _ hword, splitOnChar_append ':' target content ht]
  cases hs : splitOnChar ':' content with
  | nil => exact absurd hs (splitOnChar_ne_nil ':' content)
  | cons a t =>
    have ha : a = content.takeWhile (fun x => x != ':') := by
      have hh := splitOnChar_headD ':' content
      rw [hs] at hh
      simpa using hh
    simp [List.take, ha]

theorem personalChat_directMsg_cases (myId target content friendName fromAddress : Str)
    (timestamp : Nat) (messages : List Message) (ht : ':' ∉ target) :
    (target = myId →
        personalChatOnMessage myId friendName
            (directMsgTag ++ target ++ ':' :: content) fromAddress timestamp messages
          = messages ++ [⟨mkRecvId timestamp fromAddress,
              content.takeWhile (fun x => x != ':'), fromAddress, friendName,
              timestamp, false⟩]) ∧
    (target ≠ myId →
        personalChatOnMessage myId friendName
            (directMsgTag ++ target ++ ':' :: content) fromAddress timestamp messages
          = messages) := by
  have hpre : List.isPrefixOf directMsgTag
      (directMsgTag ++ (target ++ ':' :: content)) = true :=
    isPrefixOf_append_self _ _
  constructor
  · intro h
    unfold personalChatOnMessage
    rw [splitLimit_directMsg target content ht]
    simp [hpre, h]
  · intro h
    unfold personalChatOnMessage
    rw [splitLimit_directMsg target content ht]
    simp [hpre, h]

/-- C2: a received DIRECT_MSG whose target field is delimiter-free is appended
to the personal-chat message list exactly on the device whose own persistent
identity equals the target; on any device whose identity differs the list is
unchanged. -/
theorem directMsg_display_iff (myId target content friendName fromAddress : Str)
    (timestamp : Nat) (messages : List Message) (ht : ':' ∉ target) :
    (target = myId →
        personalChatOnMessage myId friendName
            (directMsgTag ++ target ++ ':' :: content) fromAddress timestamp messages
          = messages ++ [⟨mkRecvId timestamp fromAddress,
              content.takeWhile (fun x => x != ':'), fromAddress, friendName,
              timestamp, false⟩]) ∧
    (target ≠ myId →
        personalChatOnMessage myId friendName
            (directMsgTag ++ target ++ ':' :: content) fromAddress timestamp messages
          = messages) :=
  personalChat_directMsg_cases myId target content friendName fromAddress
    timestamp messages ht

theorem directMsg_display_iff_witness :
    personalChatOnMessage "B1".toList "Alice".toList
        (directMsgTag ++ "B1".toList ++ ':' :: "hello".toList) "e7".toList 5 []
      = [] ++ [⟨mkRecvId 5 "e7".toList,
          "hello".toList.takeWhile (fun x => x != ':'), "e7".toList,
          "Alice".toList, 5, false⟩] ∧
    personalChatOnMessage "B2".toList "Alice".toList
        (directMsgTag ++ "B1".toList ++ ':' :: "hello".toList) "e7".toList 5 []
      = [] :=
  ⟨(directMsg_display_iff "B1".toList "B1".toList "hello".toList "Alice".toList
      "e7".toList 5 [] (by decide)).1 rfl,
   (directMsg_display_iff "B2".toList "B1".toList "hello".toList "Alice".toList
      "e7".toList 5 [] (by decide)).2 (by decide)⟩

/-- C10: the recipient of a DIRECT_MSG displays only the prefix of the content
before its first embedded colon — the limit-3 split discards everything after
the third field — so the content reaches the display intact exactly when it is
free of the colon delimiter. -/
theorem directMsg_content_truncation (myId content friendName fromAddress : Str)
    (timestamp : Nat) (messages : List Message) (hid : ':' ∉ myId) :
    personalChatOnMessage myId friendName
        (directMsgTag ++ myId ++ ':' :: content) fromAddress timestamp messages
      = messages ++ [⟨mkRecvId timestamp fromAddress,
          content.takeWhile (fun x => x != ':'), fromAddress, friendName,
          timestamp, false⟩] ∧
    (content.takeWhile (fun x => x != ':') = content ↔ ':' ∉ content) :=
  ⟨(personalChat_directMsg_cases myId myId content friendName fromAddress
      timestamp messages hid).1 rfl,
   takeWhile_eq_self_iff_not_mem ':' content⟩

theorem directMsg_content_truncation_witness :
    personalChatOnMessage "B1".toList "Alice".toList
        (directMsgTag ++ "B1".toList ++ ':' :: "he:llo".toList) "e7".toList 5 []
      = [] ++ [⟨mkRecvId 5 "e7".toList,
          "he:llo".toList.takeWhile (fun x => x != ':'), "e7".toList,
          "Alice".toList, 5, false⟩] ∧
    ("he:llo".toList.takeWhile (fun x => x != ':') = "he:llo".toList
      ↔ ':' ∉ "he:llo".toList) :=
  directMsg_content_truncation "B1".toList "he:llo".toList "Alice".toList
    "e7".toList 5 [] (by decide)

/-!
## Friend storage (StorageService in src/src/screens/Onboarding/Onboarding.tsx)
-/

structure Friend where
  persistentId : Str
  displayName : Str
  deviceAddress : Option Str
  lastSeen : Option Nat
deriving DecidableEq

inductive ReqType where
  | incoming
  | outgoing
deriving DecidableEq

structure FriendRequest where
  persistentId : Str
  displayName : Str
  deviceAddress : Str
  timestamp : Nat
  reqType : Option ReqType
deriving DecidableEq

/-- `StorageService.isFriend`: some stored Friend carries this persistent id. -/
def isFriendB (friends : List Friend) (persistentId : Str) : Bool :=
  friends.any (fun f => f.persistentId == persistentId)

/-- `StorageService.addFriend`: findIndex on persistentId; an existing record
is overwritten in place by the new fields with a fresh lastSeen, otherwise the
new record is appended. Callers always pass deviceAddress, so the object
spread reduces to the incoming record with lastSeen set to now. -/
def addFriend (friend : Friend) (now : Nat) : List Friend → List Friend
  | [] => [{ friend with lastSeen := some now }]
  | f :: fs =>
    if f.persistentId = friend.persistentId then
      { friend with lastSeen := some now } :: fs
    else f :: addFriend friend now fs

/-- `StorageService.removeFriend`: keep every record with a different id. -/
def removeFriend (persistentId : Str) (friends : List Friend) : List Friend :=
  friends.filter (fun f => f.persistentId != persistentId)

/-- `StorageService.addFriendRequest`: replace the request with the same
persistentId in place, or append. -/
def addFriendRequest (request : FriendRequest) : List FriendRequest → List FriendRequest
  | [] => [request]
  | r :: rs =>
    if r.persistentId = request.persistentId then request :: rs
    else r :: addFriendRequest request rs

/-- `StorageService.removeFriendRequest`. -/
def removeFriendRequest (persistentId : Str)
    (requests : List FriendRequest) : List FriendRequest :=
  requests.filter (fun r => r.persistentId != persistentId)

/-- JavaScript `new Set([...prev, x])` over a duplicate-free list:
append x unless already present. -/
def setInsert (x : Str) (l : List Str) : List Str :=
  if x ∈ l then l else l ++ [x]

/-!
## Broadcast chat screen (src/src/screens/Chats/useChatScreen.ts)
-/

/-- The local Message interface of useChatScreen.ts (broadcast chat). -/
structure ChatMessage where
  id : Str
  text : Str
  fromAddress : Str
  timestamp : Nat
  isSent : Bool
deriving DecidableEq

/-- The state touched by the useChatScreen onMessageReceived listener: the two
persisted tables, their two React mirrors, and the broadcast message list. -/
structure ChatState where
  friends : List Friend
  requests : List FriendRequest
  friendsList : List Str
  friendRequests : List FriendRequest
  messages : List ChatMessage
deriving DecidableEq

/-- The onMessageReceived listener of useChatScreen.ts. `now` models the
Date.now() read inside StorageService.addFriend. FRIEND_REQUEST and
FRIEND_ACCEPT are parsed by a full colon split requiring exactly three parts;
a sender who is already a Friend makes either handler return before touching
any state; DIRECT_MSG is skipped; everything else lands in the broadcast
message list. -/
def chatsOnMessageReceived (message fromAddress : Str) (timestamp now : Nat)
    (s : ChatState) : ChatState :=
  if List.isPrefixOf friendRequestTag message then
    match splitOnChar ':' message with
    | [_, requestPersistentId, requestDisplayName] =>
      if isFriendB s.friends requestPersistentId then s
      else
        let friendRequest : FriendRequest :=
          ⟨requestPersistentId, requestDisplayName, fromAddress, timestamp,
           some ReqType.incoming⟩
        { s with
          requests := addFriendRequest friendRequest s.requests,
          friendRequests :=
            (s.friendRequests.filter
              (fun r => r.persistentId != requestPersistentId)) ++ [friendRequest] }
    | _ => s
  else if List.isPrefixOf friendAcceptTag message then
    match splitOnChar ':' message with
    | [_, acceptPersistentId, acceptDisplayName] =>
      if isFriendB s.friends acceptPersistentId then s
      else
        { s with
          friends := addFriend
            ⟨acceptPersistentId, acceptDisplayName, some fromAddress, none⟩
            now s.friends,
          friendsList := setInsert acceptPersistentId s.friendsList,
          requests := removeFriendRequest acceptPersistentId s.requests,
          friendRequests := s.friendRequests.filter
            (fun r => r.persistentId != acceptPersistentId) }
    | _ => s
  else if List.isPrefixOf directMsgTag message then s
  else
    { s with messages := s.messages ++
        [⟨mkRecvId timestamp fromAddress, message, fromAddress, timestamp, false⟩] }

theorem splitOnChar_two_fields (c : Char) (word id name : Str)
    (hw : c ∉ word) (hid : c ∉ id) (hn : c ∉ name) :
    splitOnChar c ((word ++ [c]) ++ id ++ c :: name) = [word, id, name] := by
  have heq : (word ++ [c]) ++ id ++ c :: name = word ++ c :: (id ++ c :: name) := by
    simp [List.append_assoc]
  rw [heq, splitOnChar_append c word _ hw, splitOnChar_append c id name hid,
      splitOnChar_of_not_mem c name hn]

/-- C6: a FRIEND_REQUEST from a persistent id that already has a Friend
record, and a duplicate FRIEND_ACCEPT for an already-established Friend, are
idempotent no-ops: the friend table, the request table, the React mirrors and
the message list all come back unchanged and no duplicate record appears. -/
theorem friend_duplicate_noop (id name fromAddress : Str) (timestamp now : Nat)
    (s : ChatState) (hid : ':' ∉ id) (hn : ':' ∉ name)
    (hfriend : isFriendB s.friends id = true) :
    chatsOnMessageReceived (friendRequestTag ++ id ++ ':' :: name)
        fromAddress timestamp now s = s ∧
    chatsOnMessageReceived (friendAcceptTag ++ id ++ ':' :: name)
        fromAddress timestamp now s = s := by
  have hw1 : ':' ∉ "FRIEND_REQUEST".toList := by decide
  have hw2 : ':' ∉ "FRIEND_ACCEPT".toList := by decide
  have htag1 : friendRequestTag = "FRIEND_REQUEST".toList ++ [':'] := by decide
  have htag2 : friendAcceptTag = "FRIEND_ACCEPT".toList ++ [':'] := by decide
  have hsplit1 : splitOnChar ':' (friendRequestTag ++ id ++ ':' :: name)
      = ["FRIEND_REQUEST".toList, id, name] := by
    rw [htag1]
    exact splitOnChar_two_fields ':' _ id name hw1 hid hn
  have hsplit2 : splitOnChar ':' (friendAcceptTag ++ id ++ ':' :: name)
      = ["FRIEND_ACCEPT".toList, id, name] := by
    rw [htag2]
    exact splitOnChar_two_fields ':' _ id name hw2 hid hn
  have hpre1 : List.isPrefixOf friendRequestTag
      (friendRequestTag ++ (id ++ ':' :: name)) = true := isPrefixOf_append_self _ _
  have hpre2 : List.isPrefixOf friendAcceptTag
      (friendAcceptTag ++ (id ++ ':' :: name)) = true := isPrefixOf_append_self _ _
  have hpre_ne : List.isPrefixOf friendRequestTag
      (friendAcceptTag ++ (id ++ ':' :: name)) = false := rfl
  constructor
  · unfold chatsOnMessageReceived
    rw [hsplit1]
    simp [hpre1, hfriend]
  · unfold chatsOnMessageReceived
    rw [hsplit2]
    simp [hpre_ne, hpre2, hfriend]

theorem friend_duplicate_noop_witness :
    chatsOnMessageReceived (friendRequestTag ++ "B1".toList ++ ':' :: "Bob".toList)
        "e1".toList 5 9
        ⟨[⟨"B1".toList, "Bob".toList, none, none⟩], [], [], [], []⟩
      = ⟨[⟨"B1".toList, "Bob".toList, none, none⟩], [], [], [], []⟩ ∧
    chatsOnMessageReceived (friendAcceptTag ++ "B1".toList ++ ':' :: "Bob".toList)
        "e1".toList 5 9
        ⟨[⟨"B1".toList, "Bob".toList, none, none⟩], [], [], [], []⟩
      = ⟨[⟨"B1".toList, "Bob".toList, none, none⟩], [], [], [], []⟩ :=
  friend_duplicate_noop "B1".toList "Bob".toList "e1".toList 5 9
    ⟨[⟨"B1".toList, "Bob".toList, none, none⟩], [], [], [], []⟩
    (by decide) (by decide) (by decide)

/-!
## Friend-table invariant (C7)
-/

inductive FriendOp where
  | add (friend : Friend) (now : Nat) : FriendOp
  | remove (persistentId : Str) : FriendOp

/-- One StorageService friend-table operation applied to the stored list. -/
def applyFriendOp (friends : List Friend) : FriendOp → List Friend
  | FriendOp.add friend now => addFriend friend now friends
  | FriendOp.remove persistentId => removeFriend persistentId friends

/-- A whole sequence of addFriend/removeFriend calls, oldest first. -/
def applyFriendOps (ops : List FriendOp) (friends : List Friend) : List Friend :=
  ops.foldl applyFriendOp friends

theorem addFriend_map_of_mem (f : Friend) (now : Nat) (l : List Friend)
    (h : f.persistentId ∈ l.map Friend.persistentId) :
    (addFriend f now l).map Friend.persistentId = l.map Friend.persistentId := by
  induction l with
  | nil => simp at h
  | cons g gs ih =>
    by_cases hg : g.persistentId = f.persistentId
    · simp [addFriend, hg]
    · have h' : f.persistentId ∈ gs.map Friend.persistentId := by
        rw [List.map_cons] at h
        rcases List.mem_cons.mp h with he | hm
        · exact absurd he.symm hg
        · exact hm
      simp [addFriend, hg, ih h']

theorem addFriend_length_of_mem (f : Friend) (now : Nat) (l : List Friend)
    (h : f.persistentId ∈ l.map Friend.persistentId) :
    (addFriend f now l).length = l.length := by
  induction l with
  | nil => simp at h
  | cons g gs ih =>
    by_cases hg : g.persistentId = f.persistentId
    · simp [addFriend, hg]
    · have h' : f.persistentId ∈ gs.map Friend.persistentId := by
        rw [List.map_cons] at h
        rcases List.mem_cons.mp h with he | hm
        · exact absurd he.symm hg
        · exact hm
      simp [addFriend, hg, ih h']

theorem addFriend_map_of_not_mem (f : Friend) (now : Nat) (l : List Friend)
    (h : f.persistentId ∉ l.map Friend.persistentId) :
    (addFriend f now l).map Friend.persistentId
      = l.map Friend.persistentId ++ [f.persistentId] := by
  induction l with
  | nil => simp [addFriend]
  | cons g gs ih =>
    have hg : ¬ g.persistentId = f.persistentId := by
      intro he
      exact h (by simp [he])
    have h' : f.persistentId ∉ gs.map Friend.persistentId := by
      intro hm
      exact h (by simp [hm])
    simp [addFriend, hg, ih h']

theorem addFriend_nodup (f : Friend) (now : Nat) (l : List Friend)
    (h : (l.map Friend.persistentId).Nodup) :
    ((addFriend f now l).map Friend.persistentId).Nodup := by
  by_cases hm : f.persistentId ∈ l.map Friend.persistentId
  · rw [addFriend_map_of_mem f now l hm]
    exact h
  · rw [addFriend_map_of_not_mem f now l hm]
    refine List.Nodup.append h (List.nodup_singleton _) ?_
    intro a ha hb
    rw [List.mem_singleton.mp hb] at ha
    exact hm ha

theorem removeFriend_nodup (pid : Str) (l : List Friend)
    (h : (l.map Friend.persistentId).Nodup) :
    ((removeFriend pid l).map Friend.persistentId).Nodup := by
  have hs : List.Sublist (removeFriend pid l) l := List.filter_sublist l
  exact List.Nodup.sublist (List.Sublist.map Friend.persistentId hs) h

theorem applyFriendOps_nodup (ops : List FriendOp) :
    ∀ l : List Friend, (l.map Friend.persistentId).Nodup →
      ((applyFriendOps ops l).map Friend.persistentId).Nodup := by
  induction ops with
  | nil => intro l h; exact h
  | cons op rest ih =>
    intro l h
    cases op with
    | add f now => exact ih (addFriend f now l) (addFriend_nodup f now l h)
    | remove pid => exact ih (removeFriend pid l) (removeFriend_nodup pid l h)

/-- C7: after any sequence of addFriend/removeFriend operations starting from
the empty store, the friends list holds at most one record per persistentId;
and addFriend on an id already present rewrites the record in place — same
ids, same length — instead of appending a second one. -/
theorem friends_table_unique :
    (∀ ops : List FriendOp,
        ((applyFriendOps ops []).map Friend.persistentId).Nodup) ∧
    (∀ (f : Friend) (now : Nat) (l : List Friend),
        f.persistentId ∈ l.map Friend.persistentId →
        (addFriend f now l).map Friend.persistentId = l.map Friend.persistentId ∧
        (addFriend f now l).length = l.length) :=
  ⟨fun ops => applyFriendOps_nodup ops [] (by simp),
   fun f now l h => ⟨addFriend_map_of_mem f now l h, addFriend_length_of_mem f now l h⟩⟩

theorem friends_table_unique_witness :
    ((applyFriendOps
        [FriendOp.add ⟨"B1".toList, "Bob".toList, none, none⟩ 1,
         FriendOp.add ⟨"B1".toList, "Bobby".toList, none, none⟩ 2]
        []).map Friend.persistentId).Nodup ∧
    (addFriend ⟨"B1".toList, "Bobby".toList, none, none⟩ 3
        [⟨"B1".toList, "Bob".toList, none, some 1⟩]).length
      = [(⟨"B1".toList, "Bob".toList, none, some 1⟩ : Friend)].length :=
  ⟨friends_table_unique.1
      [FriendOp.add ⟨"B1".toList, "Bob".toList, none, none⟩ 1,
       FriendOp.add ⟨"B1".toList, "Bobby".toList, none, none⟩ 2],
   (friends_table_unique.2 ⟨"B1".toList, "Bobby".toList, none, none⟩ 3
      [⟨"B1".toList, "Bob".toList, none, some 1⟩] (by decide)).2⟩

/-!
## Connection-error handling (useChatScreen.ts onConnectionError listener)
-/

/-- The retry machinery of useChatScreen: the status line plus the two
per-peer Maps, connectionRetryTimers (address to timer handle) and
connectionAttempts (address to attempt count). -/
structure RetryState where
  status : Str
  retryTimers : List (Str × Nat)
  attempts : List (Str × Nat)
deriving DecidableEq

/-- JavaScript Map.delete keyed by address, as used on the two refs. -/
def eraseKey (k : Str) (l : List (Str × Nat)) : List (Str × Nat) :=
  l.filter (fun p => p.1 != k)

/-- The onConnectionError listener switch: code 1 returns early with nothing
touched; code 3 clears the peer's retry timer and attempt counter and sets a
status; codes 13, 8001 and 8002 only set their status lines; any other code
sets the generic status. -/
def onConnectionError (reasonCode : Nat) (deviceAddress : Str)
    (s : RetryState) : RetryState :=
  if reasonCode = 1 then s
  else if reasonCode = 3 then
    { status := "Peer no longer available".toList,
      retryTimers := eraseKey deviceAddress s.retryTimers,
      attempts := eraseKey deviceAddress s.attempts }
  else if reasonCode = 13 then
    { s with status := "Network I/O Error - Will retry automatically".toList }
  else if reasonCode = 8001 then
    { s with status := "Connection rejected".toList }
  else if reasonCode = 8002 then
    { s with status := "Connection failed - Will retry".toList }
  else
    { s with status := "Error code ".toList ++ Nat.toDigits 10 reasonCode }

/-- C9 counterexample: a rejected connection (code 8001) leaves the peer's
retry timer and attempt counter in place, so retries against that peer are
not stopped as the claim states. -/
theorem onConnectionError_8001_keeps_retrying :
    (onConnectionError 8001 "X".toList
        ⟨[], [("X".toList, 7)], [("X".toList, 2)]⟩).retryTimers
      = [("X".toList, 7)] ∧
    (onConnectionError 8001 "X".toList
        ⟨[], [("X".toList, 7)], [("X".toList, 2)]⟩).attempts
      = [("X".toList, 2)] :=
  ⟨rfl, rfl⟩

/-- C9 (amended): the handler classifies connection errors as
benign-informational (code 1), ignored with no state change at all; peer-gone
(code 3), cancelling that peer's retry timer and attempt counter; transient-io
(code 13), leaving the retry machinery untouched so it keeps running; and
rejected (code 8001), surfaced to the user through the status line but with
the retry timer and attempt counter left running rather than stopped. -/
theorem onConnectionError_classification (addr : Str) (s : RetryState) :
    onConnectionError 1 addr s = s ∧
    (onConnectionError 3 addr s).retryTimers = eraseKey addr s.retryTimers ∧
    (onConnectionError 3 addr s).attempts = eraseKey addr s.attempts ∧
    (onConnectionError 3 addr s).status = "Peer no longer available".toList ∧
    (onConnectionError 13 addr s).retryTimers = s.retryTimers ∧
    (onConnectionError 13 addr s).attempts = s.attempts ∧
    (onConnectionError 8001 addr s).status = "Connection rejected".toList ∧
    (onConnectionError 8001 addr s).retryTimers = s.retryTimers ∧
    (onConnectionError 8001 addr s).attempts = s.attempts :=
  ⟨rfl, rfl, rfl, rfl, rfl, rfl, rfl, rfl, rfl⟩
